import Mathlib

/-!
Verification of `generate_tree` (src/generate_tree.py).

The program walks a directory tree with `os.walk(startpath)`, filters an
exclusion set out of the subdirectory list in place before descent, and
prints a header followed by one line per visited non-root directory and
one line per file of each visited directory.

The shallow embedding below models:
* the filesystem snapshot as a tree (`DirTree`/`Entries`), each directory
  carrying an `ok` flag meaning "enumerating this directory succeeds"
  (CPython `os.walk` calls `scandir`; with the default `onerror=None` a
  failing `scandir` makes the walk silently skip that directory);
* the Python string operations the source uses: `str.replace(old, '')`
  (`pyReplace`), `str.count(os.sep)` (`countSep`), `os.path.basename`
  (`pyBasename`), `os.path.join` (`pathJoin`), `s * n` (`strRepeat`);
* `os.path.abspath(startpath)` is environment-dependent (it consults the
  process working directory), so it is passed in as the `absPath` argument;
* `print` as appending one line to a list of output lines.
-/

namespace FlightApp

/-- Number of `os.sep` (`'/'`) characters in a character list: Python
`s.count(os.sep)` for a single-character separator. -/
def countSep (l : List Char) : Nat := (l.filter (fun c => c = '/')).length

/-- One left-to-right scan of Python `s.replace(pat, '')` for a nonempty
pattern `p :: ps`, with explicit fuel so that the recursion is structural
(the fuel is initialised to the length of the scanned list, which is always
enough, since every step consumes at least one character). -/
def removeOccFuel (p : Char) (ps : List Char) : Nat → List Char → List Char
  | 0, s => s
  | _ + 1, [] => []
  | fuel + 1, c :: cs =>
    if (p :: ps).isPrefixOf (c :: cs) then removeOccFuel p ps fuel (cs.drop ps.length)
    else c :: removeOccFuel p ps fuel cs

/-- Python `s.replace(old, '')`: remove every non-overlapping occurrence of
`old` from `s`, scanning left to right.  (`s.replace('', '')` is `s`.) -/
def pyReplace (s old : String) : String :=
  match old.data with
  | [] => s
  | p :: ps => String.mk (removeOccFuel p ps s.data.length s.data)

/-- Python `os.path.basename` on POSIX: the suffix of `s` after the last
`'/'` (all of `s` when it has no `'/'`, empty when `s` ends with `'/'`). -/
def pyBasename (s : String) : String :=
  String.mk ((s.data.reverse.takeWhile (fun c => c ≠ '/')).reverse)

/-- Python `os.path.join(a, b)` on POSIX (two arguments, as used by
`os.walk` to build the paths of subdirectories). -/
def pathJoin (a b : String) : String :=
  if b.data.head? = some '/' then b
  else if a = "" ∨ a.data.getLast? = some '/' then a ++ b
  else a ++ "/" ++ b

/-- Python `s * n` for a string `s` and a nonnegative count `n`. -/
def strRepeat (s : String) : Nat → String
  | 0 => ""
  | n + 1 => s ++ strRepeat s n

/-- The hard-coded exclusion set of `generate_tree` (a Python `set` of
directory names, membership by exact string equality). -/
def exclude_dirs : List String :=
  ["modules", "node_modules", ".git", "__pycache__", ".vscode", "dist", "build"]

mutual
/-- A filesystem directory: `ok` is whether enumerating it (`scandir`)
succeeds, `dirs` its immediate subdirectories in enumeration order, and
`files` its immediate file names in enumeration order. -/
inductive DirTree : Type where
  | node (ok : Bool) (dirs : Entries) (files : List String) : DirTree

/-- The ordered list of named immediate subdirectories of a directory. -/
inductive Entries : Type where
  | nil : Entries
  | cons (name : String) (t : DirTree) (rest : Entries) : Entries
end

/-- The in-place filtering `dirs[:] = [d for d in dirs if d not in
exclude_dirs]` performed on the subdirectory list before any descent. -/
def filterExcl : Entries → Entries
  | .nil => .nil
  | .cons n t rest =>
    if n ∈ exclude_dirs then filterExcl rest else .cons n t (filterExcl rest)

/-- The file-printing loop: `enumerate(files)` with connector `'└── '` for
the last index and `'├── '` otherwise, each line prefixed by `sub_indent`. -/
def fileLines (si : String) (files : List String) : List String :=
  files.enum.map (fun q =>
    si ++ (if q.1 = files.length - 1 then "└── " else "├── ") ++ q.2)

mutual
/-- The body of the `for root, dirs, files in os.walk(startpath)` loop of
`generate_tree`, fused with the walk itself: at each directory whose
enumeration succeeds, filter the subdirectory list in place, print the
directory line (unless at the root) with indentation
`'│   ' * root.replace(startpath, '').count(os.sep)`, print the file lines
one level deeper, and then descend into the surviving subdirectories in
order (`os.walk` is top-down, so the in-place filtering of `dirs` happens
strictly before the walk descends).  A directory whose enumeration fails
yields no triple at all (`os.walk` with the default `onerror=None` ignores
the `scandir` error), hence no lines and no descent. -/
def DirTree.walkLines (sp p : String) : DirTree → List String
  | .node ok dirs files =>
    if ok then
      (if p = sp then []
       else [strRepeat "│   " (countSep (pyReplace p sp).data) ++ "├── " ++
             pyBasename p ++ "/"]) ++
      (fileLines (strRepeat "│   " (countSep (pyReplace p sp).data + 1)) files) ++
      Entries.walkLines sp p dirs
    else []

/-- Descent into the (already conceptually filtered) subdirectory list:
iterating the list `[d for d in dirs if d not in exclude_dirs]` is expressed
entry-wise — an entry whose name is in `exclude_dirs` is dropped (neither
enumerated nor rendered, exactly as if removed from the list before the
loop; `walkLines_filterExcl` below proves this equal to walking the
explicitly filtered list), any other entry is walked at path
`os.path.join(p, name)`. -/
def Entries.walkLines (sp p : String) : Entries → List String
  | .nil => []
  | .cons n t rest =>
    (if n ∈ exclude_dirs then []
     else DirTree.walkLines sp (pathJoin p n) t) ++
    Entries.walkLines sp p rest
end

/-- The header line `f"Project Structure: {os.path.basename(os.path.abspath(
startpath)) or startpath}"`; `absPath` is `os.path.abspath(startpath)`. -/
def headerLine (absPath sp : String) : String :=
  "Project Structure: " ++
    (if pyBasename absPath = "" then sp else pyBasename absPath)

/-- The output of `generate_tree(startpath)` as the list of printed lines,
given the absolute path `absPath = os.path.abspath(startpath)` and the
filesystem snapshot `t` rooted at `startpath`. -/
def generate_tree (absPath sp : String) (t : DirTree) : List String :=
  headerLine absPath sp :: strRepeat "=" 40 :: DirTree.walkLines sp sp t

mutual
/-- Enumeration trace of the walk: the list of directories on which the
walk attempts `scandir`, as component paths relative to the root (the root
is `[]`).  `scandir` is attempted on the root and, whenever a directory's
enumeration succeeds, on each subdirectory surviving the in-place
exclusion filter, in order. -/
def DirTree.visited : DirTree → List (List String)
  | .node ok dirs _ => [] :: (if ok then Entries.visited dirs else [])

/-- Relative paths attempted below a directory, one entry list at a time;
an excluded entry contributes nothing (the walk never reaches it). -/
def Entries.visited : Entries → List (List String)
  | .nil => []
  | .cons n t rest =>
    (if n ∈ exclude_dirs then []
     else (DirTree.visited t).map (fun l => n :: l)) ++
    Entries.visited rest
end

mutual
/-- Every directory of the snapshot as a relative component path,
irrespective of readability and exclusion (the reference enumeration that
`visited` is compared against). -/
def DirTree.allPaths : DirTree → List (List String)
  | .node _ dirs _ => [] :: Entries.allPaths dirs

/-- All relative paths contributed by an entry list. -/
def Entries.allPaths : Entries → List (List String)
  | .nil => []
  | .cons n t rest =>
    (DirTree.allPaths t).map (fun l => n :: l) ++ Entries.allPaths rest
end

mutual
/-- Number of directories in the snapshot (the root included). -/
def DirTree.dirCount : DirTree → Nat
  | .node _ dirs _ => 1 + Entries.dirCount dirs

/-- Number of directories contributed by an entry list. -/
def Entries.dirCount : Entries → Nat
  | .nil => 0
  | .cons _ t rest => DirTree.dirCount t + Entries.dirCount rest
end

mutual
/-- Number of files in the snapshot. -/
def DirTree.fileCount : DirTree → Nat
  | .node _ dirs files => files.length + Entries.fileCount dirs

/-- Number of files contributed by an entry list. -/
def Entries.fileCount : Entries → Nat
  | .nil => 0
  | .cons _ t rest => DirTree.fileCount t + Entries.fileCount rest
end

mutual
/-- The snapshot with every excluded-named subdirectory (at any depth)
deleted outright: rendering this pruned snapshot is provably the same as
rendering the original, which is the sense in which excluded subtrees are
"never listed". -/
def DirTree.prune : DirTree → DirTree
  | .node ok dirs files => .node ok (Entries.prune dirs) files

/-- Pruning an entry list: drop excluded names, prune the rest. -/
def Entries.prune : Entries → Entries
  | .nil => .nil
  | .cons n t rest =>
    if n ∈ exclude_dirs then Entries.prune rest
    else .cons n (DirTree.prune t) (Entries.prune rest)
end

mutual
/-- Booleans: the walk names of a snapshot are well formed — every
subdirectory name is nonempty and free of the path separator (true of any
real filesystem, where a name can never contain `'/'`). -/
def DirTree.wf : DirTree → Bool
  | .node _ dirs _ => Entries.wf dirs

/-- Well-formedness of an entry list. -/
def Entries.wf : Entries → Bool
  | .nil => true
  | .cons n t rest =>
    (n ≠ "" && n.data.all (fun c => c ≠ '/')) && DirTree.wf t && Entries.wf rest
end

mutual
/-- Whether every directory of the snapshot can be enumerated. -/
def DirTree.allOk : DirTree → Bool
  | .node ok dirs _ => ok && Entries.allOk dirs

/-- Readability of every directory of an entry list. -/
def Entries.allOk : Entries → Bool
  | .nil => true
  | .cons _ t rest => DirTree.allOk t && Entries.allOk rest
end

mutual
/-- Whether no directory of the snapshot bears an excluded name. -/
def DirTree.noExcl : DirTree → Bool
  | .node _ dirs _ => Entries.noExcl dirs

/-- Exclusion-freedom of an entry list. -/
def Entries.noExcl : Entries → Bool
  | .nil => true
  | .cons n t rest =>
    !(decide (n ∈ exclude_dirs)) && DirTree.noExcl t && Entries.noExcl rest
end

mutual
/-- Reference rendering, written from the specification's words with the
depth carried as a number rather than recomputed from path strings: a
non-root directory at depth `d` prints one line at indent `d`, its files at
indent `d + 1`, and its non-excluded subdirectories follow at depth `d + 1`.
The equivalence proof `walkLines_eq_render` below is what settles how the
program's indentation relates to the depth. -/
def render (d : Nat) (isRoot : Bool) (name : String) : DirTree → List String
  | .node ok dirs files =>
    if ok then
      (if isRoot then []
       else [strRepeat "│   " d ++ "├── " ++ name ++ "/"]) ++
      fileLines (strRepeat "│   " (d + 1)) files ++
      renderE (d + 1) dirs
    else []

/-- Reference rendering of an entry list at depth `d`. -/
def renderE (d : Nat) : Entries → List String
  | .nil => []
  | .cons n t rest =>
    (if n ∈ exclude_dirs then [] else render d false n t) ++ renderE d rest
end

/-- Process state for the effect-level model: the filesystem snapshot, the
standard-output lines and the standard-error lines. -/
structure World where
  fs : DirTree
  stdout : List String
  stderr : List String

/-- `print(s)`: append one line to standard output (the only effect the
source program performs). -/
def pr (s : String) (w : World) : World := ⟨w.fs, w.stdout ++ [s], w.stderr⟩

/-- Print a list of lines in order. -/
def prAll (ls : List String) (w : World) : World :=
  ls.foldl (fun a s => pr s a) w

mutual
/-- The walk of `generate_tree` as a state transformer: the loop body
prints the directory line and the file lines of the current directory,
then the walk descends; nothing else touches the state. -/
def DirTree.walkRun (sp p : String) (w : World) : DirTree → World
  | .node ok dirs files =>
    if ok then
      Entries.walkRun sp p
        (prAll
          ((if p = sp then []
            else [strRepeat "│   " (countSep (pyReplace p sp).data) ++ "├── " ++
                  pyBasename p ++ "/"]) ++
           fileLines (strRepeat "│   " (countSep (pyReplace p sp).data + 1)) files)
          w)
        dirs
    else w

/-- Stateful descent into an entry list, skipping excluded names. -/
def Entries.walkRun (sp p : String) (w : World) : Entries → World
  | .nil => w
  | .cons n t rest =>
    Entries.walkRun sp p
      (if n ∈ exclude_dirs then w else DirTree.walkRun sp (pathJoin p n) w t)
      rest
end

/-- The whole program as a state transformer: print the header and the
separator, then walk the snapshot found at the root. -/
def runProgram (absPath sp : String) (w : World) : World :=
  DirTree.walkRun sp sp (pr (strRepeat "=" 40) (pr (headerLine absPath sp) w)) w.fs

/-! Lemmas about the string operations. -/

theorem data_eq_nil {s : String} (h : s.data = []) : s = "" :=
  String.ext (by rw [h])

theorem mk_data (s : String) : String.mk s.data = s := String.ext rfl

theorem countSep_append (a b : List Char) :
    countSep (a ++ b) = countSep a + countSep b := by
  simp [countSep, List.filter_append]

theorem countSep_cons (c : Char) (l : List Char) :
    countSep (c :: l) = (if c = '/' then 1 else 0) + countSep l := by
  simp only [countSep, List.filter_cons]
  by_cases h : c = '/'
  · simp [h, Nat.add_comm]
  · simp [h]

theorem countSep_eq_zero {l : List Char} (h : ∀ c ∈ l, c ≠ '/') :
    countSep l = 0 := by
  simp only [countSep, List.length_eq_zero, List.filter_eq_nil_iff,
    decide_eq_true_eq]
  exact h

theorem countSep_removeOccFuel (p : Char) (ps : List Char)
    (hp : ∀ c ∈ p :: ps, c ≠ '/') :
    ∀ (fuel : Nat) (s : List Char),
      countSep (removeOccFuel p ps fuel s) = countSep s := by
  intro fuel
  induction fuel with
  | zero => intro s; rfl
  | succ k ih =>
    intro s
    match s with
    | [] => rfl
    | c :: cs =>
      rw [removeOccFuel]
      by_cases h : (p :: ps).isPrefixOf (c :: cs)
      · rw [if_pos h]
        rw [ List.isPrefixOf_iff_prefix] at h
        obtain ⟨t, ht⟩ := h
        have h2 : p :: (ps ++ t) = c :: cs := by simpa using ht
        injection h2 with hpc hcs
        have hdrop : List.drop ps.length cs = t := by
          rw [← hcs]; exact List.drop_left ps t
        rw [hdrop, ih t, ← hcs, countSep_cons, countSep_append]
        have h0 : countSep ps = 0 :=
          countSep_eq_zero (fun a ha => hp a (List.mem_cons_of_mem p ha))
        have hc : c ≠ '/' := hpc ▸ hp p (List.mem_cons_self p ps)
        rw [h0, if_neg hc]
        omega
      · rw [if_neg h, countSep_cons, countSep_cons, ih]

theorem countSep_pyReplace (s old : String) (h : ∀ c ∈ old.data, c ≠ '/') :
    countSep (pyReplace s old).data = countSep s.data := by
  rcases hod : old.data with _ | ⟨p, ps⟩
  · simp [pyReplace, hod]
  · simp only [pyReplace, hod]
    exact countSep_removeOccFuel p ps (by rw [← hod]; exact h) _ _

theorem head?_ne_sep {l : List Char} (h : ∀ c ∈ l, c ≠ '/') :
    l.head? ≠ some '/' := by
  cases l with
  | nil => simp
  | cons a t =>
    simp only [List.head?_cons, ne_eq, Option.some.injEq]
    exact h a (List.mem_cons_self a t)

theorem getLast?_ne_sep {l : List Char} (h : ∀ c ∈ l, c ≠ '/') :
    l.getLast? ≠ some '/' := by
  intro hl
  obtain ⟨hne, hg⟩ :=
    List.mem_getLast?_eq_getLast (l := l) (x := '/') (Option.mem_def.mpr hl)
  exact h _ (hg ▸ List.getLast_mem hne) rfl

theorem pathJoin_eq (p n : String) (_hn1 : n ≠ "") (hn2 : ∀ c ∈ n.data, c ≠ '/')
    (hp1 : p ≠ "") (hp2 : p.data.getLast? ≠ some '/') :
    pathJoin p n = p ++ "/" ++ n := by
  unfold pathJoin
  rw [if_neg (head?_ne_sep hn2), if_neg]
  rintro (h | h)
  · exact hp1 h
  · exact hp2 h

theorem join_ne_empty (p n : String) : p ++ "/" ++ n ≠ "" := by
  intro h
  have h2 : (p ++ "/" ++ n).data = [] := by rw [h]
  simp [String.data_append] at h2

theorem getLast?_join_ne_sep (p n : String) (hn1 : n ≠ "")
    (hn2 : ∀ c ∈ n.data, c ≠ '/') :
    (p ++ "/" ++ n).data.getLast? ≠ some '/' := by
  rw [String.data_append,
    List.getLast?_append_of_ne_nil _ (fun h => hn1 (data_eq_nil h))]
  exact getLast?_ne_sep hn2

theorem countSep_join (p n : String) (hn2 : ∀ c ∈ n.data, c ≠ '/') :
    countSep (p ++ "/" ++ n).data = countSep p.data + 1 := by
  rw [String.data_append, String.data_append, countSep_append, countSep_append,
    countSep_eq_zero hn2]
  have h1 : countSep ("/" : String).data = 1 := rfl
  omega

theorem takeWhile_ne_sep :
    ∀ (l₁ : List Char), (∀ c ∈ l₁, c ≠ '/') → ∀ (l₂ : List Char),
      (l₁ ++ '/' :: l₂).takeWhile (fun c => c ≠ '/') = l₁ := by
  intro l₁ h
  induction l₁ with
  | nil => intro l₂; simp [List.takeWhile_cons]
  | cons a t ih =>
    intro l₂
    have ha : a ≠ '/' := h a (List.mem_cons_self a t)
    have ih2 := ih (fun c hc => h c (List.mem_cons_of_mem a hc)) l₂
    simp only [List.cons_append, List.takeWhile_cons]
    simp [ha]
    simpa using ih2

theorem pyBasename_join (p n : String) (hn2 : ∀ c ∈ n.data, c ≠ '/') :
    pyBasename (p ++ "/" ++ n) = n := by
  unfold pyBasename
  have h1 : (p ++ "/" ++ n).data = p.data ++ '/' :: n.data := by
    rw [String.data_append, String.data_append]
    have hsep : ("/" : String).data = ['/'] := rfl
    rw [hsep, List.append_assoc, List.singleton_append]
  rw [h1]
  have h2 : (p.data ++ '/' :: n.data).reverse =
      n.data.reverse ++ '/' :: p.data.reverse := by
    simp [List.reverse_append, List.reverse_cons, List.append_assoc]
  rw [h2, takeWhile_ne_sep _ (fun c hc => hn2 c (List.mem_reverse.mp hc))]
  simp [mk_data]

theorem pathJoin_length (p n : String) (hn1 : n ≠ "")
    (hn2 : ∀ c ∈ n.data, c ≠ '/') :
    p.length < (pathJoin p n).length := by
  have hn : 0 < n.length := by
    cases hd : n.data with
    | nil => exact absurd (data_eq_nil hd) hn1
    | cons a t => simp [String.length, hd]
  unfold pathJoin
  rw [if_neg (head?_ne_sep hn2)]
  split
  · rw [String.length_append]; omega
  · rw [String.length_append, String.length_append]; omega

theorem fileLines_length (si : String) (fs : List String) :
    (fileLines si fs).length = fs.length := by
  simp [fileLines]

/-! Extracting the Boolean side conditions. -/

theorem wfT_node {ok : Bool} {dirs : Entries} {files : List String}
    (h : DirTree.wf (.node ok dirs files) = true) : Entries.wf dirs = true := by
  rw [DirTree.wf] at h; exact h

theorem wf_cons {n : String} {t : DirTree} {rest : Entries}
    (h : Entries.wf (.cons n t rest) = true) :
    (n ≠ "" ∧ ∀ c ∈ n.data, c ≠ '/') ∧
      DirTree.wf t = true ∧ Entries.wf rest = true := by
  rw [Entries.wf] at h
  simp only [Bool.and_eq_true, decide_eq_true_eq, List.all_eq_true] at h
  exact ⟨⟨h.1.1.1, h.1.1.2⟩, h.1.2, h.2⟩

theorem allOk_node {ok : Bool} {dirs : Entries} {files : List String}
    (h : DirTree.allOk (.node ok dirs files) = true) :
    ok = true ∧ Entries.allOk dirs = true := by
  rw [DirTree.allOk] at h
  simpa using h

theorem allOk_cons {n : String} {t : DirTree} {rest : Entries}
    (h : Entries.allOk (.cons n t rest) = true) :
    DirTree.allOk t = true ∧ Entries.allOk rest = true := by
  rw [Entries.allOk] at h
  simpa using h

theorem noExcl_node {ok : Bool} {dirs : Entries} {files : List String}
    (h : DirTree.noExcl (.node ok dirs files) = true) :
    Entries.noExcl dirs = true := by
  rw [DirTree.noExcl] at h; exact h

theorem noExcl_cons {n : String} {t : DirTree} {rest : Entries}
    (h : Entries.noExcl (.cons n t rest) = true) :
    n ∉ exclude_dirs ∧ DirTree.noExcl t = true ∧ Entries.noExcl rest = true := by
  rw [Entries.noExcl] at h
  simp only [Bool.and_eq_true, Bool.not_eq_true', decide_eq_false_iff_not] at h
  exact ⟨h.1.1, h.1.2, h.2⟩

/-! The in-place filter, and pruning excluded subtrees, do not change the
walk. -/

theorem walkLines_filterExcl (sp p : String) :
    ∀ (es : Entries),
      Entries.walkLines sp p (filterExcl es) = Entries.walkLines sp p es
  | .nil => rfl
  | .cons n t rest => by
    by_cases h : n ∈ exclude_dirs <;>
      simp [filterExcl, h, Entries.walkLines, walkLines_filterExcl sp p rest]

mutual
theorem walkT_prune (sp p : String) : ∀ (t : DirTree),
    DirTree.walkLines sp p (DirTree.prune t) = DirTree.walkLines sp p t
  | .node ok dirs files => by
    simp [DirTree.prune, DirTree.walkLines, walkE_prune sp p dirs]

theorem walkE_prune (sp p : String) : ∀ (es : Entries),
    Entries.walkLines sp p (Entries.prune es) = Entries.walkLines sp p es
  | .nil => rfl
  | .cons n t rest => by
    by_cases h : n ∈ exclude_dirs
    · simp [Entries.prune, h, Entries.walkLines, walkE_prune sp p rest]
    · simp [Entries.prune, h, Entries.walkLines, walkE_prune sp p rest,
        walkT_prune sp (pathJoin p n) t]
end

/-! No excluded name ever occurs in an enumerated path. -/

mutual
theorem visitedT_not_excl : ∀ (t : DirTree) (rel : List String),
    rel ∈ DirTree.visited t → ∀ c ∈ rel, c ∉ exclude_dirs
  | .node ok dirs files, rel, hrel, c, hc => by
    rw [DirTree.visited] at hrel
    rcases List.mem_cons.mp hrel with h | h
    · subst h; exact absurd hc (List.not_mem_nil c)
    · cases ok
      · simp at h
      · simp only [if_pos] at h
        exact visitedE_not_excl dirs rel h c hc

theorem visitedE_not_excl : ∀ (es : Entries) (rel : List String),
    rel ∈ Entries.visited es → ∀ c ∈ rel, c ∉ exclude_dirs
  | .nil, rel, hrel, c, hc => absurd hrel (List.not_mem_nil rel)
  | .cons n t rest, rel, hrel, c, hc => by
    rw [Entries.visited] at hrel
    rcases List.mem_append.mp hrel with h | h
    · by_cases hxn : n ∈ exclude_dirs
      · rw [if_pos hxn] at h; exact absurd h (List.not_mem_nil rel)
      · rw [if_neg hxn] at h
        obtain ⟨rel2, hrel2, hmap⟩ := List.mem_map.mp h
        subst hmap
        rcases List.mem_cons.mp hc with hcn | hc2
        · subst hcn; exact hxn
        · exact visitedT_not_excl t rel2 hrel2 c hc2
    · exact visitedE_not_excl rest rel h c hc
end

/-! On a fully readable, exclusion-free snapshot the walk enumerates
exactly the directories of the snapshot, in walk order. -/

mutual
theorem visitedT_eq_allPaths : ∀ (t : DirTree), DirTree.allOk t = true →
    DirTree.noExcl t = true → DirTree.visited t = DirTree.allPaths t
  | .node ok dirs files, ha, hx => by
    obtain ⟨hok, had⟩ := allOk_node ha
    subst hok
    rw [DirTree.visited, DirTree.allPaths, if_pos rfl,
      visitedE_eq_allPaths dirs had (noExcl_node hx)]

theorem visitedE_eq_allPaths : ∀ (es : Entries), Entries.allOk es = true →
    Entries.noExcl es = true → Entries.visited es = Entries.allPaths es
  | .nil, _, _ => rfl
  | .cons n t rest, ha, hx => by
    obtain ⟨hat, har⟩ := allOk_cons ha
    obtain ⟨hxn, hxt, hxr⟩ := noExcl_cons hx
    rw [Entries.visited, Entries.allPaths, if_neg hxn,
      visitedT_eq_allPaths t hat hxt, visitedE_eq_allPaths rest har hxr]
end

/-! Exactly one line per non-root directory and one per file. -/

mutual
theorem walkT_length (sp : String) :
    ∀ (t : DirTree) (p : String), DirTree.wf t = true →
      DirTree.allOk t = true → DirTree.noExcl t = true → sp.length ≤ p.length →
      (DirTree.walkLines sp p t).length + (if p = sp then 1 else 0) =
        DirTree.dirCount t + DirTree.fileCount t
  | .node ok dirs files, p, hw, ha, hx, hlen => by
    obtain ⟨hok, had⟩ := allOk_node ha
    subst hok
    rw [DirTree.walkLines, DirTree.dirCount, DirTree.fileCount, if_pos rfl,
      List.length_append, List.length_append, fileLines_length,
      walkE_length sp dirs p (wfT_node hw) had (noExcl_node hx) hlen]
    by_cases hp : p = sp <;> simp [hp] <;> omega

theorem walkE_length (sp : String) :
    ∀ (es : Entries) (p : String), Entries.wf es = true →
      Entries.allOk es = true → Entries.noExcl es = true → sp.length ≤ p.length →
      (Entries.walkLines sp p es).length =
        Entries.dirCount es + Entries.fileCount es
  | .nil, p, _, _, _, _ => rfl
  | .cons n t rest, p, hw, ha, hx, hlen => by
    obtain ⟨⟨hn1, hn2⟩, hwt, hwr⟩ := wf_cons hw
    obtain ⟨hat, har⟩ := allOk_cons ha
    obtain ⟨hxn, hxt, hxr⟩ := noExcl_cons hx
    have hjlen : p.length < (pathJoin p n).length := pathJoin_length p n hn1 hn2
    have hne : pathJoin p n ≠ sp := by
      intro h
      have h2 : (pathJoin p n).length = sp.length := by rw [h]
      omega
    have hT := walkT_length sp t (pathJoin p n) hwt hat hxt (by omega)
    rw [if_neg hne] at hT
    rw [Entries.walkLines, List.length_append, if_neg hxn,
      Entries.dirCount, Entries.fileCount,
      walkE_length sp rest p hwr har hxr hlen]
    omega
end

/-! The output and the enumeration are bounded by the size of the
snapshot: the walk terminates after at most one visit per directory. -/

mutual
theorem walkT_bound : ∀ (t : DirTree) (sp p : String),
    (DirTree.walkLines sp p t).length ≤
      DirTree.dirCount t + DirTree.fileCount t ∧
    (DirTree.visited t).length ≤ DirTree.dirCount t
  | .node ok dirs files, sp, p => by
    obtain ⟨hE1, hE2⟩ := walkE_bound dirs sp p
    cases ok
    · constructor
      · simp [DirTree.walkLines, DirTree.dirCount, DirTree.fileCount]
      · simp [DirTree.visited, DirTree.dirCount]
    · constructor
      · rw [DirTree.walkLines, if_pos rfl, List.length_append,
          List.length_append, fileLines_length, DirTree.dirCount,
          DirTree.fileCount]
        have hline : (if p = sp then ([] : List String)
            else [strRepeat "│   " (countSep (pyReplace p sp).data) ++
              "├── " ++ pyBasename p ++ "/"]).length ≤ 1 := by
          by_cases hp : p = sp <;> simp [hp]
        omega
      · rw [DirTree.visited, if_pos rfl, List.length_cons, DirTree.dirCount]
        omega

theorem walkE_bound : ∀ (es : Entries) (sp p : String),
    (Entries.walkLines sp p es).length ≤
      Entries.dirCount es + Entries.fileCount es ∧
    (Entries.visited es).length ≤ Entries.dirCount es
  | .nil, sp, p => by
    simp [Entries.walkLines, Entries.visited, Entries.dirCount,
      Entries.fileCount]
  | .cons n t rest, sp, p => by
    have hT := walkT_bound t sp (pathJoin p n)
    have hR := walkE_bound rest sp p
    by_cases hxn : n ∈ exclude_dirs <;>
      simp only [Entries.walkLines, Entries.visited, hxn, if_pos, if_neg,
        not_false_eq_true, List.length_append, List.length_map,
        List.length_nil, Entries.dirCount, Entries.fileCount] <;>
      omega
end

/-! The walk agrees with the reference rendering: each visited non-root
directory at depth `d` prints its line at indent `d` and its files at
indent `d + 1` (given a separator-free, nonempty root token and
well-formed names). -/

mutual
theorem walkT_eq_render (sp : String) (hsp : ∀ c ∈ sp.data, c ≠ '/') :
    ∀ (t : DirTree) (d : Nat) (p : String), DirTree.wf t = true → p ≠ "" →
      p.data.getLast? ≠ some '/' → countSep p.data = d →
      DirTree.walkLines sp p t = render d (decide (p = sp)) (pyBasename p) t
  | .node ok dirs files, d, p, hw, hp1, hp2, hpd => by
    have hlev : countSep (pyReplace p sp).data = d := by
      rw [countSep_pyReplace p sp hsp]; exact hpd
    rw [DirTree.walkLines, render, hlev,
      walkE_eq_render sp hsp dirs d p (wfT_node hw) hp1 hp2 hpd]
    by_cases hps : p = sp <;> simp [hps]

theorem walkE_eq_render (sp : String) (hsp : ∀ c ∈ sp.data, c ≠ '/') :
    ∀ (es : Entries) (d : Nat) (p : String), Entries.wf es = true → p ≠ "" →
      p.data.getLast? ≠ some '/' → countSep p.data = d →
      Entries.walkLines sp p es = renderE (d + 1) es
  | .nil, d, p, _, _, _, _ => rfl
  | .cons n t rest, d, p, hw, hp1, hp2, hpd => by
    obtain ⟨⟨hn1, hn2⟩, hwt, hwr⟩ := wf_cons hw
    have hj : pathJoin p n = p ++ "/" ++ n := pathJoin_eq p n hn1 hn2 hp1 hp2
    rw [Entries.walkLines, renderE, hj,
      walkE_eq_render sp hsp rest d p hwr hp1 hp2 hpd]
    by_cases hxn : n ∈ exclude_dirs
    · rw [if_pos hxn, if_pos hxn]
    · rw [if_neg hxn, if_neg hxn,
        walkT_eq_render sp hsp t (d + 1) (p ++ "/" ++ n) hwt
          (join_ne_empty p n) (getLast?_join_ne_sep p n hn1 hn2)
          (by rw [countSep_join p n hn2, hpd]),
        pyBasename_join p n hn2]
      have hne : ¬(p ++ "/" ++ n = sp) := by
        intro h
        have h1 : countSep (p ++ "/" ++ n).data = countSep sp.data := by rw [h]
        rw [countSep_join p n hn2, hpd, countSep_eq_zero hsp] at h1
        omega
      simp [hne]
end

/-! The state-transformer form of the program only appends to standard
output. -/

theorem prAll_eq : ∀ (ls : List String) (w : World),
    prAll ls w = ⟨w.fs, w.stdout ++ ls, w.stderr⟩ := by
  intro ls
  induction ls with
  | nil => intro w; cases w; simp [prAll]
  | cons s rest ih =>
    intro w
    have h : prAll (s :: rest) w = prAll rest (pr s w) := rfl
    rw [h, ih]
    cases w
    simp [pr]

mutual
theorem walkRunT_eq : ∀ (t : DirTree) (sp p : String) (w : World),
    DirTree.walkRun sp p w t =
      ⟨w.fs, w.stdout ++ DirTree.walkLines sp p t, w.stderr⟩
  | .node ok dirs files, sp, p, w => by
    rw [DirTree.walkRun, DirTree.walkLines]
    cases ok
    · cases w; simp
    · rw [if_pos rfl, if_pos rfl,
        walkRunE_eq dirs sp p _, prAll_eq]
      cases w
      simp [List.append_assoc]

theorem walkRunE_eq : ∀ (es : Entries) (sp p : String) (w : World),
    Entries.walkRun sp p w es =
      ⟨w.fs, w.stdout ++ Entries.walkLines sp p es, w.stderr⟩
  | .nil, sp, p, w => by cases w; simp [Entries.walkRun, Entries.walkLines]
  | .cons n t rest, sp, p, w => by
    rw [Entries.walkRun, Entries.walkLines]
    by_cases hxn : n ∈ exclude_dirs
    · rw [if_pos hxn, if_pos hxn, walkRunE_eq rest sp p w]
      simp
    · rw [if_neg hxn, if_neg hxn, walkRunT_eq t sp (pathJoin p n) w,
        walkRunE_eq rest sp p _]
      simp [List.append_assoc]
end

theorem runProgram_eq (absP sp : String) (w : World) :
    runProgram absP sp w = ⟨w.fs, w.stdout ++ generate_tree absP sp w.fs, w.stderr⟩ := by
  rw [runProgram, walkRunT_eq]
  simp [pr, generate_tree, List.append_assoc]

/-! Concrete example snapshots. -/

/-- A root containing one subdirectory `src` holding one file `main.go`. -/
def exSrcTree : DirTree :=
  .node true (.cons "src" (.node true .nil ["main.go"]) .nil) []

/-- A root containing exactly one file `a.txt` and no subdirectories. -/
def exOneFile : DirTree := .node true .nil ["a.txt"]

/-- A root whose enumeration fails, holding entries that would be below
it. -/
def exBadRoot : DirTree :=
  .node false (.cons "src" (.node true .nil ["f.txt"]) .nil) ["g.txt"]

/-- A root containing an excluded directory `build` (with content), a
regular directory `lib`, and a file. -/
def exMixed : DirTree :=
  .node true
    (.cons "build"
      (.node true (.cons "x" (.node true .nil ["y.o"]) .nil) ["z.o"])
      (.cons "lib" (.node true .nil ["a.c"]) .nil))
    ["top.txt"]

/-- A readable, exclusion-free root with two subdirectories and files. -/
def exLibTree : DirTree :=
  .node true
    (.cons "lib" (.node true .nil ["a.c"])
      (.cons "docs" (.node true .nil []) .nil))
    ["top.txt"]

/-! The claims. -/

/-- Claim C1: the exclusion filtering of the subdirectory list happens
strictly before any recursive descent, so for every snapshot an
excluded-named subdirectory (at any depth) is never enumerated — every
path the walk attempts `scandir` on is free of excluded components — and
no output line comes from it or from anything beneath it: the output of
`generate_tree` equals its output on the snapshot with every
excluded-named subtree deleted outright. -/
theorem C1_excluded_never_visited (absP sp : String) (t : DirTree) :
    (∀ rel ∈ DirTree.visited t, ∀ c ∈ rel, c ∉ exclude_dirs) ∧
    generate_tree absP sp t = generate_tree absP sp (DirTree.prune t) := by
  constructor
  · exact fun rel hrel c hc => visitedT_not_excl t rel hrel c hc
  · rw [generate_tree, generate_tree, walkT_prune]

/-- Claim C2 counterexample: the claim says a failing enumeration raises
the underlying filesystem error uncaught and aborts the traversal; in
fact, with the root's enumeration failing (nonexistent, unreadable or not
a directory), `generate_tree` completes normally and returns exactly the
header and separator lines — nothing is raised and nothing aborts. -/
theorem C2_counterexample :
    generate_tree "/h/proj" "proj" exBadRoot =
      ["Project Structure: proj", strRepeat "=" 40] := by decide

/-- Claim C2 (amended): enumeration failures are silently ignored
(`os.walk`'s default `onerror=None` swallows the `scandir` error): a root
that cannot be enumerated produces exactly the header lines and the
function returns normally, and a subdirectory that cannot be enumerated
contributes no lines while the traversal continues with its siblings. -/
theorem C2_errors_ignored (absP sp : String) (dirs : Entries)
    (files : List String) :
    generate_tree absP sp (.node false dirs files) =
      [headerLine absP sp, strRepeat "=" 40] ∧
    ∀ (p n : String) (bd : Entries) (bf : List String) (rest : Entries),
      Entries.walkLines sp p (.cons n (.node false bd bf) rest) =
        Entries.walkLines sp p rest := by
  constructor
  · rw [generate_tree, DirTree.walkLines]
    simp
  · intro p n bd bf rest
    rw [Entries.walkLines, DirTree.walkLines]
    by_cases hxn : n ∈ exclude_dirs <;> simp [hxn]

/-- Claim C3 counterexample: the first printed line is not the base name
of the root directory — it is the base name prefixed by
`"Project Structure: "`. -/
theorem C3_counterexample :
    (generate_tree "/home/u/proj" "proj" exOneFile).head? ≠ some "proj" ∧
    (generate_tree "/home/u/proj" "proj" exOneFile).head? =
      some "Project Structure: proj" := by
  constructor <;> decide

/-- Claim C3 (amended): for every root, the first two printed lines are
`"Project Structure: "` followed by the base name of the absolute root
path (or the literal root token when that base name is empty), and then a
separator of exactly 40 `'='` characters. -/
theorem C3_header (absP sp : String) (t : DirTree) :
    (generate_tree absP sp t).take 2 =
      ["Project Structure: " ++
        (if pyBasename absP = "" then sp else pyBasename absP),
       strRepeat "=" 40] ∧
    (strRepeat "=" 40).data = List.replicate 40 '=' := by
  constructor
  · rfl
  · decide

/-- Claim C4 counterexample: in a root `proj` containing `src/main.go`,
the claim predicts the directory line `"├── src/"` at indent depth 0; the
program prints `"│   ├── src/"` (indent depth 1) and the claimed line
appears nowhere in the output. -/
theorem C4_counterexample :
    generate_tree "/home/u/proj" "proj" exSrcTree =
      ["Project Structure: proj", strRepeat "=" 40,
       "│   ├── src/", "│   │   └── main.go"] ∧
    "├── src/" ∉ generate_tree "/home/u/proj" "proj" exSrcTree := by
  constructor <;> decide

/-- Claim C4 (amended): every visited non-root directory at depth `d`
(`d` = number of path separators between the root and it) prints exactly
one line `indent(d) + "├── " + name + "/"` — at indent depth `d`, not
`d - 1`: the walk output coincides with the reference rendering `render`,
in which a directory at depth `d ≥ 1` contributes exactly that line (so
the `src/` of the example prints at indent depth 1).  Hypotheses: the
snapshot's names are well formed and the root token is nonempty and free
of path separators (e.g. `'.'`, as in the program's own invocation). -/
theorem C4_dir_lines (sp : String) (t : DirTree) (h1 : sp ≠ "")
    (h2 : ∀ c ∈ sp.data, c ≠ '/') (h3 : DirTree.wf t = true) :
    DirTree.walkLines sp sp t = render 0 true (pyBasename sp) t := by
  have hres := walkT_eq_render sp h2 t 0 sp h3 h1 (getLast?_ne_sep h2)
    (countSep_eq_zero h2)
  simpa using hres

/-- Claim C4 witness: the amended claim applied to the `proj/src/main.go`
example, whose reference rendering places `src/` at indent depth 1. -/
theorem C4_witness :
    DirTree.walkLines "proj" "proj" exSrcTree =
      render 0 true (pyBasename "proj") exSrcTree ∧
    render 0 true (pyBasename "proj") exSrcTree =
      ["│   ├── src/", "│   │   └── main.go"] :=
  ⟨C4_dir_lines "proj" exSrcTree (by decide) (by decide) (by decide),
   by decide⟩

/-- Claim C5 counterexample: in a root containing exactly the file
`a.txt`, the claim predicts the file line `"└── a.txt"` at indent depth
0 (the root's depth); the program prints `"│   └── a.txt"` (indent depth
1) and the claimed line appears nowhere in the output. -/
theorem C5_counterexample :
    generate_tree "/home/u/proj" "proj" exOneFile =
      ["Project Structure: proj", strRepeat "=" 40, "│   └── a.txt"] ∧
    "└── a.txt" ∉ generate_tree "/home/u/proj" "proj" exOneFile := by
  constructor <;> decide

/-- Claim C5 (amended): a visited directory at depth `d` prints one line
per immediate file at indentation level `indent(d + 1)` — one level
deeper than the directory's own line, which sits at `indent(d)` — of the
form `indent(d + 1) + connector + filename`, the connector being
`"└── "` for the last file of the (unsorted) list and `"├── "` for every
other file: the program output equals the reference rendering, and the
file-line list has exactly one line per file with precisely these
connectors. -/
theorem C5_file_lines (absP sp : String) (t : DirTree) (h1 : sp ≠ "")
    (h2 : ∀ c ∈ sp.data, c ≠ '/') (h3 : DirTree.wf t = true) :
    generate_tree absP sp t =
      headerLine absP sp :: strRepeat "=" 40 ::
        render 0 true (pyBasename sp) t ∧
    ∀ (si : String) (fs : List String) (i : Nat) (h : i < fs.length),
      (fileLines si fs).get ⟨i, by rwa [fileLines_length]⟩ =
        si ++ (if i = fs.length - 1 then "└── " else "├── ") ++
          fs.get ⟨i, h⟩ := by
  constructor
  · rw [generate_tree]
    have hres := walkT_eq_render sp h2 t 0 sp h3 h1 (getLast?_ne_sep h2)
      (countSep_eq_zero h2)
    simpa using hres
  · intro si fs i h
    simp [fileLines, List.get_eq_getElem, List.getElem_map, List.getElem_enum]

/-- Claim C5 witness: the amended claim applied to the one-file example:
`a.txt` prints at indent depth 1 with the last-file connector. -/
theorem C5_witness :
    (generate_tree "/home/u/proj" "proj" exOneFile =
      headerLine "/home/u/proj" "proj" :: strRepeat "=" 40 ::
        render 0 true (pyBasename "proj") exOneFile) ∧
    render 0 true (pyBasename "proj") exOneFile = ["│   └── a.txt"] :=
  ⟨(C5_file_lines "/home/u/proj" "proj" exOneFile (by decide) (by decide)
      (by decide)).1,
   by decide⟩

/-- Claim C6: on a snapshot with no excluded-named directory (all of it
enumerable, names well formed), the walk enumerates exactly the
directories of the snapshot — each exactly once, in order — and the
output holds exactly one line per directory other than the root plus one
line per file: its length is `(dirCount - 1) + fileCount`. -/
theorem C6_each_exactly_once (sp : String) (t : DirTree)
    (h1 : DirTree.wf t = true) (h2 : DirTree.allOk t = true)
    (h3 : DirTree.noExcl t = true) :
    DirTree.visited t = DirTree.allPaths t ∧
    (DirTree.walkLines sp sp t).length + 1 =
      DirTree.dirCount t + DirTree.fileCount t := by
  refine ⟨visitedT_eq_allPaths t h2 h3, ?_⟩
  have hlen := walkT_length sp t sp h1 h2 h3 (Nat.le_refl _)
  simpa using hlen

/-- Claim C6 witness: the exclusion-free example snapshot, where the walk
visits root, `lib` and `docs` once each and prints 2 directory lines and
2 file lines. -/
theorem C6_witness :
    DirTree.visited exLibTree = DirTree.allPaths exLibTree ∧
    (DirTree.walkLines "proj" "proj" exLibTree).length + 1 =
      DirTree.dirCount exLibTree + DirTree.fileCount exLibTree :=
  C6_each_exactly_once "proj" exLibTree (by decide) (by decide) (by decide)

/-- Claim C7: determinism — the printed output is a function of the
filesystem snapshot (which fixes the enumeration order) and the root
arguments alone, so two runs over the same unmodified snapshot produce
byte-identical output. -/
theorem C7_deterministic (absP sp : String) (t1 t2 : DirTree)
    (h : t1 = t2) :
    generate_tree absP sp t1 = generate_tree absP sp t2 := by rw [h]

/-- Claim C7 witness: two runs on the same concrete snapshot coincide. -/
theorem C7_witness :
    generate_tree "/home/u/proj" "proj" exSrcTree =
      generate_tree "/home/u/proj" "proj" exSrcTree :=
  C7_deterministic "/home/u/proj" "proj" exSrcTree exSrcTree rfl

/-- Claim C8: the exclusion set applies only to directory names, never to
file names: the file-line list always has exactly one line per file,
whatever the file names are; and a directory whose single subdirectory is
the excluded `build` (with an arbitrary subtree) and whose single file is
named `node_modules` prints the file's line while the `build` subtree
contributes nothing. -/
theorem C8_files_unfiltered (si : String) (fs : List String) :
    (fileLines si fs).length = fs.length ∧
    ∀ (sp p : String) (tSub : DirTree),
      DirTree.walkLines sp p
          (.node true (.cons "build" tSub .nil) ["node_modules"]) =
        (if p = sp then []
         else [strRepeat "│   " (countSep (pyReplace p sp).data) ++ "├── " ++
               pyBasename p ++ "/"]) ++
        [strRepeat "│   " (countSep (pyReplace p sp).data + 1) ++ "└── " ++
         "node_modules"] := by
  refine ⟨fileLines_length si fs, ?_⟩
  intro sp p tSub
  have hb : ("build" : String) ∈ exclude_dirs := by decide
  rw [DirTree.walkLines, if_pos rfl, Entries.walkLines, if_pos hb,
    Entries.walkLines]
  simp [fileLines]

/-- Claim C9: the program never modifies the filesystem and writes
nothing except lines to standard output: running it in any process state
leaves the filesystem and standard error untouched and appends exactly
the `generate_tree` lines to standard output. -/
theorem C9_frame (absP sp : String) (w : World) :
    (runProgram absP sp w).fs = w.fs ∧
    (runProgram absP sp w).stderr = w.stderr ∧
    (runProgram absP sp w).stdout =
      w.stdout ++ generate_tree absP sp w.fs := by
  rw [runProgram_eq]
  exact ⟨rfl, rfl, rfl⟩

/-- Claim C10: the traversal terminates on every finite snapshot (the
walk-without-following-symlinks reaches only the finite link-free tree):
the walk is a total function here, it attempts at most one enumeration
per directory of the snapshot, and the whole output is bounded by the
snapshot's size. -/
theorem C10_terminating (absP sp : String) (t : DirTree) :
    (DirTree.visited t).length ≤ DirTree.dirCount t ∧
    (generate_tree absP sp t).length ≤
      2 + (DirTree.dirCount t + DirTree.fileCount t) := by
  obtain ⟨h1, h2⟩ := walkT_bound t sp sp
  refine ⟨h2, ?_⟩
  rw [generate_tree]
  simp only [List.length_cons]
  omega

end FlightApp
